import Mathlib

/-!
Verification of the log-reporter detection engine.

Shallow embedding of the core of the repository:
- the Issue record (src/models/Issue.ts, embedded in src/index.js listing),
- the PuertsExceptionDetector finite-state machine (src/issue_detecter/IssueDetector.ts,
  here src/unnamed/part_001),
- the LogScanner orchestrator (src/LogScanner.ts, here src/unnamed/part_002).

JavaScript strings are modelled as Lean String values over their character
sequence; String.prototype.indexOf is modelled by jsIndexOf, which returns the
first occurrence index or -1, and String.prototype.substring(start) by
jsSubstring (negative start clamps to 0, start past the end yields the empty
string).  JavaScript exceptions (the throw in pickIssue, and the non-null
assertion on this.issue) are modelled with Except String.  Mutation of the
detector and scanner objects is modelled by explicit state passing.
-/

/-- JavaScript indexOf over character lists: the least index at which pat
occurs as a contiguous sublist, if any. -/
def subIndex (pat : List Char) : List Char → Option Nat
  | [] => if List.isPrefixOf pat [] then some 0 else none
  | c :: rest =>
    if List.isPrefixOf pat (c :: rest) then some 0
    else (subIndex pat rest).map (· + 1)

/-- JavaScript String.prototype.indexOf: first index of pat in s, or -1. -/
def jsIndexOf (s pat : String) : Int :=
  match subIndex pat.toList s.toList with
  | some n => (n : Int)
  | none => -1

/-- JavaScript String.prototype.substring with one argument: the suffix of s
from the given index (clamped below by 0, above by the length). -/
def jsSubstring (s : String) (start : Int) : String :=
  String.mk (s.toList.drop start.toNat)

/-- JavaScript String.prototype.split with separator a newline character:
the maximal newline-free chunks, in order; the empty string yields one empty
chunk, and a trailing newline yields a trailing empty chunk. -/
def jsSplitNewline : List Char → List String
  | [] => [""]
  | c :: rest =>
    let r := jsSplitNewline rest
    if c = '\n' then "" :: r
    else
      match r with
      | [] => [String.mk [c]]
      | h :: t => String.mk (c :: h.toList) :: t

/-- enum EIssueType of src/models/Issue.ts. -/
inductive EIssueType where
  | Error
  | Exception
  | Crash
deriving DecidableEq

/-- class Issue of src/models/Issue.ts.  The uuid id field is an opaque
fresh identifier and is not modelled; the remaining fields are kept with
their source names (rawLogs, stackTrace, context, source, severity). -/
structure Issue where
  type : EIssueType
  message : String
  rawLogs : List String
  stackTrace : List String
  context : List String
  source : String
  severity : String
deriving DecidableEq

/-- Issue.getSeverityFromType: the fixed kind-to-severity mapping (the JS
switch also sends its default case to "medium"). -/
def getSeverityFromType : EIssueType → String
  | EIssueType.Crash => "critical"
  | EIssueType.Exception => "high"
  | EIssueType.Error => "medium"

/-- The Issue constructor: empty line buffers, severity derived once from the
initial type. -/
def Issue.create (type : EIssueType) (message : String) : Issue :=
  { type := type
    message := message
    stackTrace := []
    rawLogs := []
    context := []
    source := ""
    severity := getSeverityFromType type }

/-- Issue.addLogLine: push onto rawLogs. -/
def Issue.addLogLine (iss : Issue) (line : String) : Issue :=
  { iss with rawLogs := iss.rawLogs ++ [line] }

/-- Issue.addStacktraceLine: push onto stackTrace. -/
def Issue.addStacktraceLine (iss : Issue) (stacktrace : String) : Issue :=
  { iss with stackTrace := iss.stackTrace ++ [stacktrace] }

/-- A direct JavaScript field write issue.type = t: it touches only the type
field (no code in the repository recomputes severity after construction). -/
def Issue.setType (iss : Issue) (t : EIssueType) : Issue :=
  { iss with type := t }

/-- enum EIssueDetectorState of src/issue_detecter/IssueDetector.ts. -/
inductive EIssueDetectorState where
  | None
  | Activated
  | Finished
deriving DecidableEq

def PUERTS_ERROR_KEYWORD : String := "Puerts: Error:"

def PUERTS_DEMO_PTR : String := "(0x0x300b08e68)"

def PUERTS_STACK_KEYWORD : String := "    at "

/-- The mutable fields of class PuertsExceptionDetector. -/
structure PuertsExceptionDetector where
  issue : Option Issue
  state : EIssueDetectorState
deriving DecidableEq

/-- A freshly constructed PuertsExceptionDetector: no issue, state None. -/
def PuertsExceptionDetector.fresh : PuertsExceptionDetector :=
  { issue := none, state := EIssueDetectorState.None }

/-- PuertsExceptionDetector.getMessageFromFirstLogLine. -/
def getMessageFromFirstLogLine (line : String) : String :=
  jsSubstring line
    (jsIndexOf line PUERTS_ERROR_KEYWORD
      + (PUERTS_ERROR_KEYWORD.length : Int) + (PUERTS_DEMO_PTR.length : Int))

/-- PuertsExceptionDetector.isLogIndicateFinished: true exactly when the
keyword occurs at a strictly positive index. -/
def isLogIndicateFinished (line : String) : Bool :=
  if 0 < jsIndexOf line PUERTS_ERROR_KEYWORD then true else false

/-- PuertsExceptionDetector.receiveLine.  The returned pair is the updated
detector object together with the returned EIssueDetectorState.  In the
non-None branch the source dereferences this.issue with a non-null assertion;
an undefined issue there would raise a TypeError, modelled as Except.error. -/
def PuertsExceptionDetector.receiveLine (d : PuertsExceptionDetector) (line : String) :
    Except String (PuertsExceptionDetector × EIssueDetectorState) :=
  match d.state with
  | EIssueDetectorState.None =>
    if 0 < jsIndexOf line PUERTS_ERROR_KEYWORD then
      let issue0 := Issue.create EIssueType.Error (getMessageFromFirstLogLine line)
      let issue1 := issue0.addLogLine line
      let stackKeywordIndex := jsIndexOf line PUERTS_STACK_KEYWORD
      let issue2 :=
        if 0 ≤ stackKeywordIndex then
          issue1.addStacktraceLine (jsSubstring line stackKeywordIndex)
        else issue1
      Except.ok
        ({ issue := some issue2, state := EIssueDetectorState.Activated },
         EIssueDetectorState.Activated)
    else
      Except.ok (d, EIssueDetectorState.None)
  | _ =>
    if isLogIndicateFinished line then
      match d.issue with
      | some iss =>
        Except.ok ({ d with issue := some (iss.addLogLine line) },
          EIssueDetectorState.Finished)
      | none => Except.error "TypeError: this.issue is undefined"
    else
      Except.ok (d, EIssueDetectorState.Activated)

/-- PuertsExceptionDetector.pickIssue: throws when no issue is owned,
otherwise hands the issue over and resets the detector to its fresh state. -/
def PuertsExceptionDetector.pickIssue (d : PuertsExceptionDetector) :
    Except String (Issue × PuertsExceptionDetector) :=
  match d.issue with
  | none => Except.error "issue not exist"
  | some iss =>
    Except.ok (iss, { issue := none, state := EIssueDetectorState.None })

/-- The mutable fields of class LogScanner: the ordered detector registry and
the currently activated detector (modelled as an index into the registry).
The issues array is local to each scanLogContent call in the source; it is
carried here so that a single state value describes one scan in flight. -/
structure ScanState where
  issueDetectors : List PuertsExceptionDetector
  activatedIssueDetector : Option Nat
  issues : List Issue
deriving DecidableEq

/-- The LogScanner constructor: a registry holding one fresh
PuertsExceptionDetector, no activated detector (the config argument is unused
by the source constructor). -/
def LogScanner.new : ScanState :=
  { issueDetectors := [PuertsExceptionDetector.fresh]
    activatedIssueDetector := none
    issues := [] }

/-- The registry probe of scanLogContent (the for..of loop over
issueDetectors in the branch with no activated detector): offer the line to
each detector in order, stop at the first one that returns Activated and
report its index; every probed detector keeps its updated state. -/
def probeDetectors (line : String) : List PuertsExceptionDetector →
    Except String (List PuertsExceptionDetector × Option Nat)
  | [] => Except.ok ([], none)
  | d :: ds =>
    match d.receiveLine line with
    | Except.error e => Except.error e
    | Except.ok (d', s) =>
      if s = EIssueDetectorState.Activated then
        Except.ok (d' :: ds, some 0)
      else
        match probeDetectors line ds with
        | Except.error e => Except.error e
        | Except.ok (ds', r) => Except.ok (d' :: ds', r.map (· + 1))

/-- One iteration of the scanLogContent loop body on the current line.  The
result is the updated scanner state together with the lines still to be
processed: the Finished branch performs pickIssue, clears the activated
detector and does not consume the line (the i-- replay of the source); every
other branch consumes it.  A Finished-state switch result other than
Activated or Finished falls through in the source and also consumes the
line. -/
def scanStep (st : ScanState) (line : String) (rest : List String) :
    Except String (ScanState × List String) :=
  match st.activatedIssueDetector with
  | some k =>
    match (st.issueDetectors.getD k PuertsExceptionDetector.fresh).receiveLine line with
    | Except.error e => Except.error e
    | Except.ok (d', s) =>
      let dets' := st.issueDetectors.set k d'
      match s with
      | EIssueDetectorState.Activated =>
        Except.ok ({ st with issueDetectors := dets' }, rest)
      | EIssueDetectorState.Finished =>
        match d'.pickIssue with
        | Except.error e => Except.error e
        | Except.ok (iss, dr) =>
          Except.ok
            ({ issueDetectors := dets'.set k dr
               activatedIssueDetector := none
               issues := st.issues ++ [iss] }, line :: rest)
      | EIssueDetectorState.None =>
        Except.ok ({ st with issueDetectors := dets' }, rest)
  | none =>
    match probeDetectors line st.issueDetectors with
    | Except.error e => Except.error e
    | Except.ok (dets', r) =>
      Except.ok
        ({ st with issueDetectors := dets', activatedIssueDetector := r }, rest)

/-- Loop variant of the scanLogContent loop: the Finished branch does not
consume its line but clears the activated detector, so twice the number of
remaining lines plus an activation flag strictly decreases at each step. -/
def scanMeasure (st : ScanState) (lines : List String) : Nat :=
  2 * lines.length + (match st.activatedIssueDetector with
    | some _ => 1
    | none => 0)

/-- The scanLogContent loop, iterating scanStep.  The fuel argument only
bounds the number of iterations so that the recursion is structural;
scanLoopF_fuel_add below shows that any fuel of at least scanMeasure st lines
gives the same result, i.e. the loop genuinely terminates within its
measure. -/
def scanLoopF : Nat → ScanState → List String → Except String ScanState
  | _, st, [] => Except.ok st
  | 0, st, _ :: _ => Except.ok st
  | fuel + 1, st, line :: rest =>
    match scanStep st line rest with
    | Except.error e => Except.error e
    | Except.ok (st', l') => scanLoopF fuel st' l'

/-- The scanLogContent loop run to completion on the given lines. -/
def scanLoop (st : ScanState) (lines : List String) : Except String ScanState :=
  scanLoopF (scanMeasure st lines) st lines

/-- LogScanner.scanLogContent applied to an already split line sequence,
starting from the given scanner instance state: the issues array starts
empty, the loop runs over the lines, and the call returns the collected
issues together with the instance state left behind for the next call. -/
def scanLinesFrom (scanner : ScanState) (lines : List String) :
    Except String (List Issue × ScanState) :=
  match scanLoop { scanner with issues := [] } lines with
  | Except.error e => Except.error e
  | Except.ok st' => Except.ok (st'.issues, st')

/-- LogScanner.scanLogContent from a given scanner instance state: split the
content on newline characters and scan the lines. -/
def scanLogContentFrom (scanner : ScanState) (content : String) :
    Except String (List Issue × ScanState) :=
  scanLinesFrom scanner (jsSplitNewline content.toList)

/-- LogScanner.scanLogContent on a newly constructed LogScanner. -/
def scanLogContent (content : String) : Except String (List Issue × ScanState) :=
  scanLogContentFrom LogScanner.new content

/-- The number of detectors of a registry reporting the Activated state. -/
def countActivated (ds : List PuertsExceptionDetector) : Nat :=
  ds.countP (fun d => d.state == EIssueDetectorState.Activated)

/-- The issue synthesized by receiveLine on a line that activates an Idle
detector: rawLogs hold exactly the triggering line; when the stack keyword
occurs in the line, the suffix of the line from that keyword is pushed onto
stackTrace. -/
def activationIssue (line : String) : Issue :=
  let issue1 :=
    (Issue.create EIssueType.Error (getMessageFromFirstLogLine line)).addLogLine line
  if 0 ≤ jsIndexOf line PUERTS_STACK_KEYWORD then
    issue1.addStacktraceLine (jsSubstring line (jsIndexOf line PUERTS_STACK_KEYWORD))
  else issue1

/-- A detector that is mid-recognition: it reports state Activated and owns
an issue whose rawLogs hold exactly the one triggering line. -/
def activeIssueOk (d : PuertsExceptionDetector) : Prop :=
  d.state = EIssueDetectorState.Activated ∧
  d.issue.map (fun iss => iss.rawLogs.length) = some 1

/-- The orchestrator invariant on the registry and the activated slot: when
no detector is activated every registered detector is fresh; when index k is
activated, detector k is mid-recognition and every other detector is
fresh. -/
def ScanInv (dets : List PuertsExceptionDetector) (act : Option Nat) : Prop :=
  match act with
  | none => ∀ d ∈ dets, d = PuertsExceptionDetector.fresh
  | some k =>
    k < dets.length ∧
    activeIssueOk (dets.getD k PuertsExceptionDetector.fresh) ∧
    ∀ j, j < dets.length → j ≠ k →
      dets.getD j PuertsExceptionDetector.fresh = PuertsExceptionDetector.fresh

/-- ScanInv together with: every emitted issue holds exactly two raw lines,
its opening line and its closing line. -/
def FullScanInv (st : ScanState) : Prop :=
  ScanInv st.issueDetectors st.activatedIssueDetector ∧
  ∀ iss ∈ st.issues, iss.rawLogs.length = 2

/-- The states the scanLogContent loop passes through: ScanReaches st lines
st2 l2 holds when the loop started at state st on lines reaches state st2
with l2 still to process. -/
inductive ScanReaches : ScanState → List String → ScanState → List String → Prop where
  | here (st : ScanState) (lines : List String) : ScanReaches st lines st lines
  | next {st : ScanState} {line : String} {rest : List String} {stm : ScanState}
      {lm : List String} {st2 : ScanState} {l2 : List String} :
      scanStep st line rest = Except.ok (stm, lm) →
      ScanReaches stm lm st2 l2 → ScanReaches st (line :: rest) st2 l2

/-- The multi-line block of the spec test for stack accumulation. -/
def c3Content : String :=
  "x Puerts: Error: A\n    at foo.bar\n    at baz.qux\nx Puerts: Error: B"

/-- The scanner instance state left behind after scanning a first log source
whose single line activates the detector, as when scanLogDirectory feeds
consecutive files to one LogScanner. -/
def c4MidState : ScanState :=
  ((scanLogContent "x Puerts: Error: a").toOption.map Prod.snd).getD LogScanner.new

/-- The in-progress issue held by the detector after the truncated input of
the discard-on-truncation test. -/
def issC6 : Issue := activationIssue "x Puerts: Error: a"

theorem getD_set_self {α : Type} (l : List α) (k : Nat) (a d : α) (h : k < l.length) :
    (l.set k a).getD k d = a := by
  induction l generalizing k with
  | nil => simp at h
  | cons b t ih =>
    cases k with
    | zero => rfl
    | succ k =>
      have h' : k < t.length := by simp only [List.length_cons] at h; omega
      exact ih k h'

theorem getD_set_other {α : Type} (l : List α) (k j : Nat) (a d : α) (h : j ≠ k) :
    (l.set k a).getD j d = l.getD j d := by
  induction l generalizing k j with
  | nil => cases k <;> rfl
  | cons b t ih =>
    cases k with
    | zero =>
      cases j with
      | zero => exact absurd rfl h
      | succ j => rfl
    | succ k =>
      cases j with
      | zero => rfl
      | succ j => exact ih k j (fun e => h (by rw [e]))

theorem getD_of_forall_mem {α : Type} {l : List α} {a : α}
    (h : ∀ x ∈ l, x = a) (j : Nat) : l.getD j a = a := by
  induction l generalizing j with
  | nil => cases j <;> rfl
  | cons b t ih =>
    cases j with
    | zero => exact h b (by simp)
    | succ j => exact ih (fun x hx => h x (by simp [hx])) j

theorem forall_mem_of_getD {α : Type} {l : List α} {a : α}
    (h : ∀ j, j < l.length → l.getD j a = a) : ∀ x ∈ l, x = a := by
  induction l with
  | nil => intro x hx; simp at hx
  | cons b t ih =>
    intro x hx
    rcases List.mem_cons.mp hx with rfl | hx'
    · exact h 0 (by simp)
    · exact ih (fun j hj => h (j + 1) (by simp only [List.length_cons]; omega)) x hx'

theorem activationIssue_rawLogs (line : String) :
    (activationIssue line).rawLogs = [line] := by
  unfold activationIssue
  split <;> simp [Issue.addStacktraceLine, Issue.addLogLine, Issue.create]

theorem activationIssue_stackTrace (line : String) :
    (activationIssue line).stackTrace =
      (if 0 ≤ jsIndexOf line PUERTS_STACK_KEYWORD then
        [jsSubstring line (jsIndexOf line PUERTS_STACK_KEYWORD)] else []) := by
  unfold activationIssue
  split <;> simp [Issue.addStacktraceLine, Issue.addLogLine, Issue.create]

theorem receiveLine_fresh_pos (line : String)
    (h : 0 < jsIndexOf line PUERTS_ERROR_KEYWORD) :
    PuertsExceptionDetector.fresh.receiveLine line =
      Except.ok (⟨some (activationIssue line), EIssueDetectorState.Activated⟩,
        EIssueDetectorState.Activated) := by
  simp [PuertsExceptionDetector.receiveLine, PuertsExceptionDetector.fresh,
    activationIssue, h]

theorem receiveLine_fresh_neg (line : String)
    (h : ¬ 0 < jsIndexOf line PUERTS_ERROR_KEYWORD) :
    PuertsExceptionDetector.fresh.receiveLine line =
      Except.ok (PuertsExceptionDetector.fresh, EIssueDetectorState.None) := by
  simp [PuertsExceptionDetector.receiveLine, PuertsExceptionDetector.fresh, h]

theorem receiveLine_active_fin (d : PuertsExceptionDetector) (line : String)
    (iss0 : Issue) (hs : d.state = EIssueDetectorState.Activated)
    (hi : d.issue = some iss0) (hf : isLogIndicateFinished line = true) :
    d.receiveLine line =
      Except.ok ({ d with issue := some (iss0.addLogLine line) },
        EIssueDetectorState.Finished) := by
  rcases d with ⟨i, s⟩
  simp only at hs hi
  subst hs
  subst hi
  simp [PuertsExceptionDetector.receiveLine, hf]

theorem receiveLine_active_notfin (d : PuertsExceptionDetector) (line : String)
    (hs : d.state = EIssueDetectorState.Activated)
    (hf : isLogIndicateFinished line = false) :
    d.receiveLine line = Except.ok (d, EIssueDetectorState.Activated) := by
  rcases d with ⟨i, s⟩
  simp only at hs
  subst hs
  simp [PuertsExceptionDetector.receiveLine, hf]

theorem probeDetectors_fresh (line : String) (ds : List PuertsExceptionDetector)
    (h : ∀ d ∈ ds, d = PuertsExceptionDetector.fresh) :
    ∃ ds' r, probeDetectors line ds = Except.ok (ds', r) ∧
      ds'.length = ds.length ∧
      ((r = none ∧ ds' = ds) ∨
        (∃ k, r = some k ∧ k < ds.length ∧
          activeIssueOk (ds'.getD k PuertsExceptionDetector.fresh) ∧
          ∀ j, j < ds.length → j ≠ k →
            ds'.getD j PuertsExceptionDetector.fresh = PuertsExceptionDetector.fresh)) := by
  induction ds with
  | nil => exact ⟨[], none, rfl, rfl, Or.inl ⟨rfl, rfl⟩⟩
  | cons d t ih =>
    have hd : d = PuertsExceptionDetector.fresh := h d (by simp)
    subst hd
    by_cases hpos : 0 < jsIndexOf line PUERTS_ERROR_KEYWORD
    · refine ⟨⟨some (activationIssue line), EIssueDetectorState.Activated⟩ :: t,
        some 0, ?_, by simp, ?_⟩
      · simp [probeDetectors, receiveLine_fresh_pos line hpos]
      · refine Or.inr ⟨0, rfl, by simp, ⟨rfl, by simp [activationIssue_rawLogs]⟩, ?_⟩
        intro j hj hj0
        cases j with
        | zero => exact absurd rfl hj0
        | succ j =>
          exact getD_of_forall_mem (fun x hx => h x (by simp [hx])) j
    · obtain ⟨ds', r, hpr, hlen, hcase⟩ := ih (fun x hx => h x (by simp [hx]))
      refine ⟨PuertsExceptionDetector.fresh :: ds', r.map (· + 1), ?_,
        by simp [hlen], ?_⟩
      · simp [probeDetectors, receiveLine_fresh_neg line hpos, hpr]
      · rcases hcase with ⟨hr, hds⟩ | ⟨k, hr, hk, hak, hothers⟩
        · subst hr; subst hds; exact Or.inl ⟨rfl, rfl⟩
        · subst hr
          refine Or.inr ⟨k + 1, rfl, by simp only [List.length_cons]; omega, hak, ?_⟩
          intro j hj hjk
          cases j with
          | zero => rfl
          | succ j =>
            exact hothers j (by simp only [List.length_cons] at hj; omega)
              (fun e => hjk (by rw [e]))

theorem scanStep_fullInv (st : ScanState) (line : String) (rest : List String)
    (h : FullScanInv st) :
    ∃ st' l', scanStep st line rest = Except.ok (st', l') ∧ FullScanInv st' := by
  obtain ⟨hinv, hissues⟩ := h
  cases hact : st.activatedIssueDetector with
  | none =>
    rw [hact] at hinv
    simp only [ScanInv] at hinv
    obtain ⟨ds', r, hpr, hlen, hcase⟩ := probeDetectors_fresh line st.issueDetectors hinv
    have hstep : scanStep st line rest =
        Except.ok ({ st with issueDetectors := ds', activatedIssueDetector := r }, rest) := by
      simp only [scanStep, hact, hpr]
    have hinv' : ScanInv ds' r := by
      rcases hcase with ⟨hr, hds⟩ | ⟨k, hr, hk, hak, hothers⟩
      · subst hr; subst hds; simpa [ScanInv] using hinv
      · subst hr
        simp only [ScanInv]
        refine ⟨by rw [hlen]; exact hk, hak, ?_⟩
        intro j hj hjk
        exact hothers j (by rw [hlen] at hj; exact hj) hjk
    exact ⟨_, _, hstep, ⟨hinv', by simpa using hissues⟩⟩
  | some k =>
    rw [hact] at hinv
    simp only [ScanInv] at hinv
    obtain ⟨hk, hak, hothers⟩ := hinv
    obtain ⟨hstate, hissue⟩ := hak
    cases hiss : (st.issueDetectors.getD k PuertsExceptionDetector.fresh).issue with
    | none => rw [hiss] at hissue; simp at hissue
    | some iss0 =>
      rw [hiss] at hissue
      simp only [Option.map_some', Option.some.injEq] at hissue
      by_cases hfin : isLogIndicateFinished line = true
      · have hrecv := receiveLine_active_fin _ line iss0 hstate hiss hfin
        have hpick : ({ st.issueDetectors.getD k PuertsExceptionDetector.fresh with
            issue := some (iss0.addLogLine line) } : PuertsExceptionDetector).pickIssue =
            Except.ok (iss0.addLogLine line, PuertsExceptionDetector.fresh) := by
          simp [PuertsExceptionDetector.pickIssue, PuertsExceptionDetector.fresh]
        have hstep : scanStep st line rest = Except.ok
            ({ issueDetectors :=
                (st.issueDetectors.set k
                  ({ st.issueDetectors.getD k PuertsExceptionDetector.fresh with
                    issue := some (iss0.addLogLine line) })).set k
                  PuertsExceptionDetector.fresh
               activatedIssueDetector := none
               issues := st.issues ++ [iss0.addLogLine line] }, line :: rest) := by
          simp only [scanStep, hact, hrecv, hpick]
        refine ⟨_, _, hstep, ⟨?_, ?_⟩⟩
        · simp only [ScanInv, List.set_set]
          refine forall_mem_of_getD ?_
          intro j hj
          by_cases hjk : j = k
          · subst hjk
            exact getD_set_self st.issueDetectors j PuertsExceptionDetector.fresh
              PuertsExceptionDetector.fresh hk
          · rw [getD_set_other st.issueDetectors k j PuertsExceptionDetector.fresh
              PuertsExceptionDetector.fresh hjk]
            exact hothers j (by simpa using hj) hjk
        · intro iss hmem
          simp only at hmem
          rcases List.mem_append.mp hmem with hmem' | hmem'
          · exact hissues iss hmem'
          · have heq : iss = iss0.addLogLine line := by simpa using hmem'
            subst heq
            simp only [Issue.addLogLine, List.length_append, List.length_cons,
              List.length_nil]
            omega
      · have hfin' : isLogIndicateFinished line = false := by
          cases hb : isLogIndicateFinished line
          · rfl
          · exact absurd hb hfin
        have hrecv := receiveLine_active_notfin _ line hstate hfin'
        have hstep : scanStep st line rest = Except.ok
            ({ st with issueDetectors := (st.issueDetectors.set k
                (st.issueDetectors.getD k PuertsExceptionDetector.fresh)) },
              rest) := by
          simp only [scanStep, hact, hrecv]
        refine ⟨_, _, hstep, ⟨?_, by simpa using hissues⟩⟩
        show ScanInv (st.issueDetectors.set k
          (st.issueDetectors.getD k PuertsExceptionDetector.fresh))
          st.activatedIssueDetector
        rw [hact]
        simp only [ScanInv]
        refine ⟨by simpa using hk, ⟨?_, ?_⟩, ?_⟩
        · rw [getD_set_self _ _ _ _ hk]; exact hstate
        · rw [getD_set_self _ _ _ _ hk, hiss]; simp [hissue]
        · intro j hj hjk
          rw [getD_set_other _ _ _ _ _ hjk]
          exact hothers j (by simpa using hj) hjk

theorem scanLoopF_fullInv : ∀ (fuel : Nat) (st : ScanState) (lines : List String),
    FullScanInv st →
    ∃ st', scanLoopF fuel st lines = Except.ok st' ∧ FullScanInv st' := by
  intro fuel
  induction fuel with
  | zero =>
    intro st lines h
    cases lines with
    | nil => exact ⟨st, rfl, h⟩
    | cons line rest => exact ⟨st, rfl, h⟩
  | succ fuel ih =>
    intro st lines h
    cases lines with
    | nil => exact ⟨st, rfl, h⟩
    | cons line rest =>
      obtain ⟨st', l', hstep, h'⟩ := scanStep_fullInv st line rest h
      obtain ⟨st'', hloop, h''⟩ := ih st' l' h'
      exact ⟨st'', by simp only [scanLoopF, hstep, hloop], h''⟩

theorem scanLoopF_nil (fuel : Nat) (st : ScanState) :
    scanLoopF fuel st [] = Except.ok st := by
  cases fuel <;> rfl

theorem scanStep_measure {st : ScanState} {line : String} {rest : List String}
    {st' : ScanState} {l' : List String}
    (h : scanStep st line rest = Except.ok (st', l')) :
    scanMeasure st' l' < scanMeasure st (line :: rest) := by
  cases hact : st.activatedIssueDetector with
  | none =>
    cases hpr : probeDetectors line st.issueDetectors with
    | error e =>
      have hcomp : scanStep st line rest = Except.error e := by
        simp only [scanStep, hact, hpr]
      rw [hcomp] at h; cases h
    | ok p =>
      obtain ⟨dets', r⟩ := p
      have hcomp : scanStep st line rest = Except.ok
          ({ st with issueDetectors := dets', activatedIssueDetector := r }, rest) := by
        simp only [scanStep, hact, hpr]
      rw [hcomp] at h
      simp only [Except.ok.injEq, Prod.mk.injEq] at h
      obtain ⟨h1, h2⟩ := h
      subst h1; subst h2
      simp only [scanMeasure, hact, List.length_cons]
      cases r
      · simp
      · simp
        omega
  | some k =>
    cases hrecv : (st.issueDetectors.getD k PuertsExceptionDetector.fresh).receiveLine line with
    | error e =>
      have hcomp : scanStep st line rest = Except.error e := by
        simp only [scanStep, hact, hrecv]
      rw [hcomp] at h; cases h
    | ok q =>
      obtain ⟨d', s⟩ := q
      cases s with
      | Activated =>
        have hcomp : scanStep st line rest = Except.ok
            ({ st with issueDetectors := st.issueDetectors.set k d' }, rest) := by
          simp only [scanStep, hact, hrecv]
        rw [hcomp] at h
        simp only [Except.ok.injEq, Prod.mk.injEq] at h
        obtain ⟨h1, h2⟩ := h
        subst h1; subst h2
        simp only [scanMeasure, hact, List.length_cons]
        omega
      | Finished =>
        cases hpick : d'.pickIssue with
        | error e =>
          have hcomp : scanStep st line rest = Except.error e := by
            simp only [scanStep, hact, hrecv, hpick]
          rw [hcomp] at h; cases h
        | ok pr =>
          obtain ⟨iss, dr⟩ := pr
          have hcomp : scanStep st line rest = Except.ok
              ({ issueDetectors := ((st.issueDetectors.set k d').set k dr)
                 activatedIssueDetector := none
                 issues := st.issues ++ [iss] }, line :: rest) := by
            simp only [scanStep, hact, hrecv, hpick]
          rw [hcomp] at h
          simp only [Except.ok.injEq, Prod.mk.injEq] at h
          obtain ⟨h1, h2⟩ := h
          subst h1; subst h2
          simp only [scanMeasure, hact, List.length_cons]
          omega
      | None =>
        have hcomp : scanStep st line rest = Except.ok
            ({ st with issueDetectors := st.issueDetectors.set k d' }, rest) := by
          simp only [scanStep, hact, hrecv]
        rw [hcomp] at h
        simp only [Except.ok.injEq, Prod.mk.injEq] at h
        obtain ⟨h1, h2⟩ := h
        subst h1; subst h2
        simp only [scanMeasure, hact, List.length_cons]
        omega

theorem scanLoopF_fuel_add : ∀ (fuel extra : Nat) (st : ScanState) (lines : List String),
    scanMeasure st lines ≤ fuel →
    scanLoopF (fuel + extra) st lines = scanLoopF fuel st lines := by
  intro fuel
  induction fuel with
  | zero =>
    intro extra st lines h
    cases lines with
    | nil => rw [scanLoopF_nil, scanLoopF_nil]
    | cons line rest =>
      exfalso
      simp only [scanMeasure, List.length_cons] at h
      omega
  | succ fuel ih =>
    intro extra st lines h
    cases lines with
    | nil => rw [scanLoopF_nil, scanLoopF_nil]
    | cons line rest =>
      have e : fuel + 1 + extra = (fuel + extra) + 1 := by omega
      rw [e]
      simp only [scanLoopF]
      cases hstep : scanStep st line rest with
      | error e2 => rfl
      | ok p =>
        obtain ⟨st', l'⟩ := p
        have hm : scanMeasure st' l' ≤ fuel :=
          Nat.lt_succ_iff.mp (lt_of_lt_of_le (scanStep_measure hstep) h)
        exact ih extra st' l' hm

theorem scanLoopF_fuel_ge (fuel : Nat) (st : ScanState) (lines : List String)
    (h : scanMeasure st lines ≤ fuel) :
    scanLoopF fuel st lines = scanLoop st lines := by
  have e : fuel = scanMeasure st lines + (fuel - scanMeasure st lines) := by omega
  rw [scanLoop, e, scanLoopF_fuel_add (scanMeasure st lines)
    (fuel - scanMeasure st lines) st lines (Nat.le_refl _)]

theorem scanInv_new : ScanInv LogScanner.new.issueDetectors
    LogScanner.new.activatedIssueDetector := by
  simp only [ScanInv, LogScanner.new]
  intro d hd
  simpa using hd

theorem scanLinesFrom_ok (scanner : ScanState) (lines : List String)
    (h : ScanInv scanner.issueDetectors scanner.activatedIssueDetector) :
    ∃ issues post, scanLinesFrom scanner lines = Except.ok (issues, post) ∧
      issues = post.issues ∧ FullScanInv post := by
  have hfull : FullScanInv { scanner with issues := [] } := by
    refine ⟨?_, ?_⟩
    · exact h
    · intro iss hmem
      simp at hmem
  obtain ⟨st', hloop, hinv'⟩ :=
    scanLoopF_fullInv (scanMeasure { scanner with issues := [] } lines)
      { scanner with issues := [] } lines hfull
  refine ⟨st'.issues, st', ?_, rfl, hinv'⟩
  simp only [scanLinesFrom, scanLoop, hloop]

theorem scanLogContentFrom_ok (scanner : ScanState) (content : String)
    (h : ScanInv scanner.issueDetectors scanner.activatedIssueDetector) :
    ∃ issues post, scanLogContentFrom scanner content = Except.ok (issues, post) ∧
      issues = post.issues ∧ FullScanInv post :=
  scanLinesFrom_ok scanner (jsSplitNewline content.toList) h

theorem countP_le_one_of_unique : ∀ (l : List PuertsExceptionDetector) (k : Nat),
    (∀ j, j < l.length → j ≠ k →
      l.getD j PuertsExceptionDetector.fresh = PuertsExceptionDetector.fresh) →
    countActivated l ≤ 1 := by
  intro l
  induction l with
  | nil => intro k h; simp [countActivated]
  | cons d t ih =>
    intro k h
    cases k with
    | zero =>
      have ht : ∀ x ∈ t, x = PuertsExceptionDetector.fresh :=
        forall_mem_of_getD (fun j hj =>
          h (j + 1) (by simp only [List.length_cons]; omega) (by omega))
      have htz : t.countP (fun d => d.state == EIssueDetectorState.Activated) = 0 := by
        rw [List.countP_eq_zero]
        intro x hx
        rw [ht x hx]
        decide
      simp only [countActivated, List.countP_cons, htz]
      split <;> simp
    | succ k =>
      have hd : d = PuertsExceptionDetector.fresh :=
        h 0 (by simp) (by omega)
      have ht := ih k (fun j hj hjk =>
        h (j + 1) (by simp only [List.length_cons]; omega) (by omega))
      simp only [countActivated, List.countP_cons, hd] at ht ⊢
      have : (PuertsExceptionDetector.fresh.state ==
          EIssueDetectorState.Activated) = false := by decide
      rw [this]
      simpa using ht

theorem scanInv_count (dets : List PuertsExceptionDetector) (act : Option Nat)
    (h : ScanInv dets act) : countActivated dets ≤ 1 := by
  cases act with
  | none =>
    simp only [ScanInv] at h
    have hz : countActivated dets = 0 := by
      unfold countActivated
      rw [List.countP_eq_zero]
      intro d hd
      rw [h d hd]
      decide
    omega
  | some k =>
    simp only [ScanInv] at h
    obtain ⟨hk, hak, hothers⟩ := h
    exact countP_le_one_of_unique dets k hothers

/-- Claim C9: an Issue's severity is derived deterministically from its kind
at creation time by the fixed mapping Crash to critical, Exception to high,
Error to medium, and is never recomputed afterwards, even if the kind field
is later changed (and also not by any other Issue operation). -/
theorem claim_C9_thm : ∀ (t t2 : EIssueType) (m l : String),
    (Issue.create t m).severity = getSeverityFromType t ∧
    getSeverityFromType EIssueType.Crash = "critical" ∧
    getSeverityFromType EIssueType.Exception = "high" ∧
    getSeverityFromType EIssueType.Error = "medium" ∧
    (∀ iss : Issue, (iss.setType t2).severity = iss.severity) ∧
    (∀ iss : Issue, (iss.addLogLine l).severity = iss.severity) ∧
    (∀ iss : Issue, (iss.addStacktraceLine l).severity = iss.severity) := by
  intro t t2 m l
  exact ⟨rfl, rfl, rfl, rfl, fun iss => rfl, fun iss => rfl, fun iss => rfl⟩

/-- Claim C10: the shipped detector recognizes its keyword only at a strictly
positive character index: a line on which the keyword occurs first at index 0
neither activates an Idle (None-state) detector nor finishes an Activated
one, and is treated like any non-matching line. -/
theorem claim_C10_thm : ∀ line : String,
    jsIndexOf line PUERTS_ERROR_KEYWORD = 0 →
    (∀ d : PuertsExceptionDetector, d.state = EIssueDetectorState.None →
      d.receiveLine line = Except.ok (d, EIssueDetectorState.None)) ∧
    isLogIndicateFinished line = false ∧
    (∀ d : PuertsExceptionDetector, d.state = EIssueDetectorState.Activated →
      d.receiveLine line = Except.ok (d, EIssueDetectorState.Activated)) := by
  intro line h
  have hnot : ¬ 0 < jsIndexOf line PUERTS_ERROR_KEYWORD := by rw [h]; omega
  have hfin : isLogIndicateFinished line = false := by
    simp [isLogIndicateFinished, hnot]
  refine ⟨?_, hfin, ?_⟩
  · intro d hd
    rcases d with ⟨i, s⟩
    simp only at hd
    subst hd
    simp [PuertsExceptionDetector.receiveLine, hnot]
  · intro d hd
    exact receiveLine_active_notfin d line hd hfin

/-- Witness for C10 at the line starting with the keyword at column 0. -/
theorem claim_C10_wit :
    PuertsExceptionDetector.fresh.receiveLine "Puerts: Error: boom" =
      Except.ok (PuertsExceptionDetector.fresh, EIssueDetectorState.None) ∧
    isLogIndicateFinished "Puerts: Error: boom" = false :=
  ⟨(claim_C10_thm "Puerts: Error: boom" (by decide)).1 PuertsExceptionDetector.fresh rfl,
   (claim_C10_thm "Puerts: Error: boom" (by decide)).2.1⟩

/-- Claim C8: after a successful pickIssue the detector is back in its fresh
state (state None, no owned issue), and on the next occurrence of the start
marker it activates with an independent Issue whose line buffers are derived
from that line alone, with no residual lines from the drained Issue. -/
theorem claim_C8_thm : ∀ (d d' : PuertsExceptionDetector) (iss : Issue),
    d.pickIssue = Except.ok (iss, d') →
    d' = PuertsExceptionDetector.fresh ∧
    ∀ line : String, 0 < jsIndexOf line PUERTS_ERROR_KEYWORD →
      d'.receiveLine line =
        Except.ok (⟨some (activationIssue line), EIssueDetectorState.Activated⟩,
          EIssueDetectorState.Activated) ∧
      (activationIssue line).rawLogs = [line] ∧
      (activationIssue line).stackTrace =
        (if 0 ≤ jsIndexOf line PUERTS_STACK_KEYWORD then
          [jsSubstring line (jsIndexOf line PUERTS_STACK_KEYWORD)] else []) := by
  intro d d' iss h
  rcases d with ⟨i, s⟩
  cases i with
  | none => simp [PuertsExceptionDetector.pickIssue] at h
  | some iss0 =>
    simp only [PuertsExceptionDetector.pickIssue, Except.ok.injEq, Prod.mk.injEq] at h
    obtain ⟨h1, h2⟩ := h
    have hd' : d' = PuertsExceptionDetector.fresh := h2.symm
    subst hd'
    refine ⟨rfl, ?_⟩
    intro line hline
    exact ⟨receiveLine_fresh_pos line hline, activationIssue_rawLogs line,
      activationIssue_stackTrace line⟩

/-- Witness for C8: drain a detector holding an issue, then reactivate it. -/
theorem claim_C8_wit :
    PuertsExceptionDetector.fresh.receiveLine "x Puerts: Error: y" =
      Except.ok
        (⟨some (activationIssue "x Puerts: Error: y"), EIssueDetectorState.Activated⟩,
          EIssueDetectorState.Activated) ∧
    (activationIssue "x Puerts: Error: y").rawLogs = ["x Puerts: Error: y"] ∧
    (activationIssue "x Puerts: Error: y").stackTrace =
      (if 0 ≤ jsIndexOf "x Puerts: Error: y" PUERTS_STACK_KEYWORD then
        [jsSubstring "x Puerts: Error: y"
          (jsIndexOf "x Puerts: Error: y" PUERTS_STACK_KEYWORD)] else []) :=
  (claim_C8_thm
      ⟨some (Issue.create EIssueType.Error "m"), EIssueDetectorState.Activated⟩
      PuertsExceptionDetector.fresh (Issue.create EIssueType.Error "m") rfl).2
    "x Puerts: Error: y" (by decide)

/-- Counterexample to claim C3 as stated: on the input block
"x Puerts: Error: A" / "    at foo.bar" / "    at baz.qux" /
"x Puerts: Error: B" the single emitted Issue has an empty stackTrace and
kind Error, not the two at-fragments and kind Exception the claim asserts:
while Activated, receiveLine ignores non-terminating lines entirely. -/
theorem claim_C3_cex :
    (scanLogContent c3Content).toOption.map
        (fun p => p.1.map (fun i => (i.type, i.stackTrace))) =
      some [(EIssueType.Error, [])] := by
  rfl

/-- Claim C3 amended: while a detector is Activated, a non-terminating line
is not recorded at all: it is neither appended to rawLogs nor examined for a
stack-frame marker, and the kind is never upgraded; stack-frame extraction
happens only on the triggering line at activation.  Consequently, for the
input of the spec test, the first emitted Issue has rawLogs holding exactly
the opening and closing lines, an empty stackTrace, and kind Error. -/
theorem claim_C3_thm :
    (∀ (d : PuertsExceptionDetector) (line : String),
      d.state = EIssueDetectorState.Activated → isLogIndicateFinished line = false →
      d.receiveLine line = Except.ok (d, EIssueDetectorState.Activated)) ∧
    (scanLogContent c3Content).toOption.map
        (fun p => p.1.map (fun i => (i.rawLogs, i.stackTrace, i.type))) =
      some [(["x Puerts: Error: A", "x Puerts: Error: B"], [], EIssueType.Error)] := by
  constructor
  · intro d line hd hfin
    exact receiveLine_active_notfin d line hd hfin
  · rfl

/-- Witness for the amended C3: an Activated detector is unchanged by a
stack-frame line. -/
theorem claim_C3_wit :
    (⟨some (Issue.create EIssueType.Error "m"), EIssueDetectorState.Activated⟩ :
        PuertsExceptionDetector).receiveLine "    at foo.bar" =
      Except.ok
        (⟨some (Issue.create EIssueType.Error "m"), EIssueDetectorState.Activated⟩,
          EIssueDetectorState.Activated) :=
  claim_C3_thm.1
    ⟨some (Issue.create EIssueType.Error "m"), EIssueDetectorState.Activated⟩
    "    at foo.bar" rfl (by decide)

/-- Claim C4 exhibits a code bug: the LogScanner instance state is not reset
between scanLogContent calls (as scanLogDirectory issues them per file).  The
first source leaves the detector Activated with an in-progress issue, and the
first line of the second source completes that issue, so the scan of the
second source emits an Issue whose rawLogs mix lines of both sources. -/
theorem claim_C4_thm :
    (scanLogContent "x Puerts: Error: a").toOption.map Prod.fst = some [] ∧
    c4MidState.activatedIssueDetector = some 0 ∧
    (scanLogContentFrom c4MidState "x Puerts: Error: b").toOption.map
        (fun p => p.1.map (fun i => i.rawLogs)) =
      some [["x Puerts: Error: a", "x Puerts: Error: b"]] :=
  ⟨rfl, rfl, rfl⟩

/-- Claim C5: for every finite input, scanLogContent terminates and returns a
(possibly empty) issue list without raising: from any scanner state
satisfying the orchestrator invariant (in particular a fresh LogScanner) the
scan returns Except.ok, and granting the loop any fuel beyond its measure
does not change the result, i.e. the loop completes within a bounded number
of steps despite the non-advancing Finished transition. -/
theorem claim_C5_thm : ∀ (scanner : ScanState) (content : String),
    ScanInv scanner.issueDetectors scanner.activatedIssueDetector →
    (∃ issues post, scanLogContentFrom scanner content = Except.ok (issues, post)) ∧
    (∀ (extra : Nat) (st : ScanState) (lines : List String),
      scanLoopF (scanMeasure st lines + extra) st lines = scanLoop st lines) := by
  intro scanner content h
  constructor
  · obtain ⟨issues, post, hok, _, _⟩ := scanLogContentFrom_ok scanner content h
    exact ⟨issues, post, hok⟩
  · intro extra st lines
    exact scanLoopF_fuel_ge _ st lines (Nat.le_add_right _ _)

/-- Witness for C5 on a fresh LogScanner and a small mixed input. -/
theorem claim_C5_wit :
    (∃ issues post,
      scanLogContentFrom LogScanner.new "boom\nx Puerts: Error: a" =
        Except.ok (issues, post)) ∧
    (∀ (extra : Nat) (st : ScanState) (lines : List String),
      scanLoopF (scanMeasure st lines + extra) st lines = scanLoop st lines) :=
  claim_C5_thm LogScanner.new "boom\nx Puerts: Error: a" scanInv_new

/-- Claim C6: an in-progress issue still owned by an Activated detector at
end of input is discarded: it never occurs among the returned issues; and on
the truncated input "x Puerts: Error: a" / "    at foo" the scan emits no
issue while the detector is left Activated holding the in-progress issue. -/
theorem claim_C6_thm :
    (∀ (scanner post : ScanState) (content : String) (issues : List Issue)
        (k : Nat) (iss : Issue),
      ScanInv scanner.issueDetectors scanner.activatedIssueDetector →
      scanLogContentFrom scanner content = Except.ok (issues, post) →
      post.activatedIssueDetector = some k →
      (post.issueDetectors.getD k PuertsExceptionDetector.fresh).issue = some iss →
      iss ∉ issues) ∧
    (scanLogContent "x Puerts: Error: a\n    at foo").toOption.map
        (fun p => (p.1, p.2.activatedIssueDetector,
          (p.2.issueDetectors.getD 0 PuertsExceptionDetector.fresh).issue)) =
      some ([], some 0, some issC6) := by
  constructor
  · intro scanner post content issues k iss hinv hok hact hiss
    obtain ⟨issues2, post2, hok2, hissues2, hfull2⟩ :=
      scanLogContentFrom_ok scanner content hinv
    rw [hok] at hok2
    simp only [Except.ok.injEq, Prod.mk.injEq] at hok2
    obtain ⟨h1, h2⟩ := hok2
    subst h2
    obtain ⟨hsinv, hlen2⟩ := hfull2
    rw [hact] at hsinv
    simp only [ScanInv] at hsinv
    obtain ⟨hk, ⟨hstate, hmap⟩, hothers⟩ := hsinv
    rw [hiss] at hmap
    simp only [Option.map_some', Option.some.injEq] at hmap
    intro hmem
    have h2' : iss.rawLogs.length = 2 := by
      apply hlen2
      rw [h1, hissues2] at hmem
      exact hmem
    omega
  · rfl

/-- Witness for C6: the in-progress issue of the truncated scan is not among
the (empty) returned issues. -/
theorem claim_C6_wit : issC6 ∉ ([] : List Issue) :=
  claim_C6_thm.1 LogScanner.new _ "x Puerts: Error: a\n    at foo" [] 0 issC6
    scanInv_new rfl rfl rfl

/-- Claim C7: pickIssue raises exactly when the detector owns no issue, and
with the orchestrator as implemented, starting from any state satisfying the
orchestrator invariant, a scan never surfaces that error. -/
theorem claim_C7_thm :
    (∀ d : PuertsExceptionDetector,
      (∃ e, d.pickIssue = Except.error e) ↔ d.issue = none) ∧
    (∀ (scanner : ScanState) (content : String),
      ScanInv scanner.issueDetectors scanner.activatedIssueDetector →
      scanLogContentFrom scanner content ≠ Except.error "issue not exist") := by
  constructor
  · intro d
    rcases d with ⟨i, s⟩
    cases i with
    | none =>
      simp [PuertsExceptionDetector.pickIssue]
    | some iss0 =>
      simp [PuertsExceptionDetector.pickIssue]
  · intro scanner content h hcontra
    obtain ⟨issues, post, hok, _, _⟩ := scanLogContentFrom_ok scanner content h
    rw [hok] at hcontra
    cases hcontra

/-- Witness for C7: a fresh detector owns no issue, so pickIssue raises, and
a scan from a fresh LogScanner does not surface the error. -/
theorem claim_C7_wit :
    (∃ e, PuertsExceptionDetector.fresh.pickIssue = Except.error e) ∧
    scanLogContentFrom LogScanner.new "x Puerts: Error: a\nx" ≠
      Except.error "issue not exist" :=
  ⟨(claim_C7_thm.1 PuertsExceptionDetector.fresh).mpr rfl,
   claim_C7_thm.2 LogScanner.new "x Puerts: Error: a\nx" scanInv_new⟩

/-- Claim C2: starting from a registry of fresh detectors (of any size) with
no activated detector, every state the scanLogContent loop passes through has
at most one detector in the Activated state; moreover the probe binds the
first detector that activates and leaves the detectors after it unprobed and
untouched. -/
theorem claim_C2_thm :
    (∀ (ds : List PuertsExceptionDetector) (lines : List String)
        (st2 : ScanState) (l2 : List String),
      (∀ d ∈ ds, d = PuertsExceptionDetector.fresh) →
      ScanReaches ⟨ds, none, []⟩ lines st2 l2 →
      countActivated st2.issueDetectors ≤ 1) ∧
    (∀ (line : String) (ds : List PuertsExceptionDetector),
      0 < jsIndexOf line PUERTS_ERROR_KEYWORD →
      probeDetectors line (PuertsExceptionDetector.fresh :: ds) =
        Except.ok
          (⟨some (activationIssue line), EIssueDetectorState.Activated⟩ :: ds,
            some 0)) := by
  constructor
  · have key : ∀ (st : ScanState) (lines : List String) (st2 : ScanState)
        (l2 : List String), ScanReaches st lines st2 l2 →
        FullScanInv st → FullScanInv st2 := by
      intro st lines st2 l2 hr
      induction hr with
      | here st lines => exact id
      | next hstep hr ih =>
        intro h
        obtain ⟨stx, lx, hstep2, hinvx⟩ := scanStep_fullInv _ _ _ h
        rw [hstep] at hstep2
        simp only [Except.ok.injEq, Prod.mk.injEq] at hstep2
        obtain ⟨h1, h2⟩ := hstep2
        rw [← h1] at hinvx
        exact ih hinvx
    intro ds lines st2 l2 hfresh hr
    have hinv0 : FullScanInv ⟨ds, none, []⟩ := by
      refine ⟨?_, ?_⟩
      · simpa [ScanInv] using hfresh
      · intro iss hmem; simp at hmem
    obtain ⟨hinv2, _⟩ := key _ _ _ _ hr hinv0
    exact scanInv_count _ _ hinv2
  · intro line ds hpos
    simp [probeDetectors, receiveLine_fresh_pos line hpos]

/-- Witness for C2: the initial state of a one-detector registry, and a probe
on an activating line. -/
theorem claim_C2_wit :
    countActivated
      (({ issueDetectors := [PuertsExceptionDetector.fresh]
          activatedIssueDetector := none
          issues := [] } : ScanState)).issueDetectors ≤ 1 ∧
    probeDetectors "x Puerts: Error: a" [PuertsExceptionDetector.fresh] =
      Except.ok
        ([⟨some (activationIssue "x Puerts: Error: a"),
          EIssueDetectorState.Activated⟩], some 0) :=
  ⟨claim_C2_thm.1 [PuertsExceptionDetector.fresh] [] _ []
      (by intro d hd; simpa using hd)
      (ScanReaches.here ⟨[PuertsExceptionDetector.fresh], none, []⟩ []),
   claim_C2_thm.2 "x Puerts: Error: a" [] (by decide)⟩

theorem scanLoopF_cons_ok {fuel : Nat} {st : ScanState} {line : String}
    {rest : List String} {st' : ScanState} {l' : List String}
    (h : scanStep st line rest = Except.ok (st', l')) :
    scanLoopF (fuel + 1) st (line :: rest) = scanLoopF fuel st' l' := by
  simp only [scanLoopF, h]

/-- Claim C1: replay correctness.  For two lines that each carry the start
keyword at a strictly positive index (the start marker doubles as the end
marker), the scan emits exactly one Issue, opened by line 1 and closed by
line 2 with both lines in its rawLogs, while the replay of line 2 (the
non-advancing Finished transition) re-activates the detector with a second
in-progress issue, left unemitted in the final state. -/
theorem claim_C1_thm : ∀ l1 l2 : String,
    0 < jsIndexOf l1 PUERTS_ERROR_KEYWORD →
    0 < jsIndexOf l2 PUERTS_ERROR_KEYWORD →
    scanLinesFrom LogScanner.new [l1, l2] =
      Except.ok ([(activationIssue l1).addLogLine l2],
        { issueDetectors :=
            [⟨some (activationIssue l2), EIssueDetectorState.Activated⟩]
          activatedIssueDetector := some 0
          issues := [(activationIssue l1).addLogLine l2] }) ∧
    ((activationIssue l1).addLogLine l2).rawLogs = [l1, l2] ∧
    (activationIssue l2).rawLogs = [l2] := by
  intro l1 l2 h1 h2
  have hfin2 : isLogIndicateFinished l2 = true := by
    simp [isLogIndicateFinished, h2]
  have s1 : scanStep ⟨[PuertsExceptionDetector.fresh], none, []⟩ l1 [l2] =
      Except.ok
        (⟨[⟨some (activationIssue l1), EIssueDetectorState.Activated⟩],
          some 0, []⟩, [l2]) := by
    simp [scanStep, probeDetectors, receiveLine_fresh_pos l1 h1]
  have hrecv2 := receiveLine_active_fin
    ⟨some (activationIssue l1), EIssueDetectorState.Activated⟩ l2
    (activationIssue l1) rfl rfl hfin2
  have s2 : scanStep
      ⟨[⟨some (activationIssue l1), EIssueDetectorState.Activated⟩], some 0, []⟩
      l2 [] =
      Except.ok
        (⟨[PuertsExceptionDetector.fresh], none,
          [(activationIssue l1).addLogLine l2]⟩, [l2]) := by
    simp [scanStep, hrecv2, PuertsExceptionDetector.pickIssue,
      PuertsExceptionDetector.fresh]
  have s3 : scanStep
      ⟨[PuertsExceptionDetector.fresh], none,
        [(activationIssue l1).addLogLine l2]⟩ l2 [] =
      Except.ok
        (⟨[⟨some (activationIssue l2), EIssueDetectorState.Activated⟩], some 0,
          [(activationIssue l1).addLogLine l2]⟩, []) := by
    simp [scanStep, probeDetectors, receiveLine_fresh_pos l2 h2]
  have hloop : scanLoop ⟨[PuertsExceptionDetector.fresh], none, []⟩ [l1, l2] =
      Except.ok
        ⟨[⟨some (activationIssue l2), EIssueDetectorState.Activated⟩], some 0,
          [(activationIssue l1).addLogLine l2]⟩ := by
    have e4 : scanMeasure ⟨[PuertsExceptionDetector.fresh], none, []⟩ [l1, l2] =
        3 + 1 := rfl
    rw [scanLoop, e4, scanLoopF_cons_ok s1]
    have e3 : (3 : Nat) = 2 + 1 := rfl
    rw [e3, scanLoopF_cons_ok s2]
    have e2 : (2 : Nat) = 1 + 1 := rfl
    rw [e2, scanLoopF_cons_ok s3]
    exact scanLoopF_nil 1 _
  refine ⟨?_, ?_, activationIssue_rawLogs l2⟩
  · simp [scanLinesFrom, LogScanner.new, hloop]
  · simp [Issue.addLogLine, activationIssue_rawLogs l1]

/-- Witness for C1 at two concrete keyword-carrying lines. -/
theorem claim_C1_wit :
    scanLinesFrom LogScanner.new ["x Puerts: Error: one", "x Puerts: Error: two"] =
      Except.ok
        ([(activationIssue "x Puerts: Error: one").addLogLine "x Puerts: Error: two"],
          { issueDetectors :=
              [⟨some (activationIssue "x Puerts: Error: two"),
                EIssueDetectorState.Activated⟩]
            activatedIssueDetector := some 0
            issues :=
              [(activationIssue "x Puerts: Error: one").addLogLine
                "x Puerts: Error: two"] }) ∧
    ((activationIssue "x Puerts: Error: one").addLogLine
        "x Puerts: Error: two").rawLogs =
      ["x Puerts: Error: one", "x Puerts: Error: two"] ∧
    (activationIssue "x Puerts: Error: two").rawLogs = ["x Puerts: Error: two"] :=
  claim_C1_thm "x Puerts: Error: one" "x Puerts: Error: two" (by decide) (by decide)
